import Mathlib

/-!
Verification development for the GENIE-derived event-generation sources:
the nuclear binding-energy aggregator (`NucBindEnergyAggregator`), the
Bardin-Dokuchaeva inverse-muon-decay cross-section model
(`BardinIMDRadCorPXSec`), and the physics interaction selector
(`PhysInteractionSelector`).

Real (`double`) arithmetic is embedded as `ℝ`; the selector's weight
arithmetic, whose implementation file is not among the sources, is modelled
over `ℚ` from the specification.
-/

namespace Genie

/-! ## Common data model: GHEP particles and event records -/

/-- GHEP particle status codes (from GHEP/GHepStatus.h enum), restricted to
the constructors consulted by the sources, plus a catch-all. -/
inductive GHepStatus where
  | kIStInitialState
  | kIStStableFinalState
  | kIstNucleonTarget
  | kIStOther
deriving DecidableEq, Repr

/-- PDG code of the proton (PDG/PDGCodes.h). -/
def kPdgProton : Int := 2212

/-- PDG code of the neutron (PDG/PDGCodes.h). -/
def kPdgNeutron : Int := 2112

/-- Modelled from the spec: PDG code of the hypothetical BINDINO bookkeeping
particle (PDG/PDGCodes.h is not among the sources). The value only matters
in that it is neither the proton nor the neutron code and not an ion code. -/
def kPdgBindino : Int := 1111111002

/-- Modelled from the spec: pdg::IsNeutronOrProton (PDG/PDGUtils is not among
the sources) — true exactly for the proton and neutron PDG codes. -/
def IsNeutronOrProton (pdgc : Int) : Bool :=
  decide (pdgc = kPdgProton) || decide (pdgc = kPdgNeutron)

/-- Modelled from the spec: pdg::IsIon (PDG/PDGUtils is not among the
sources) — ion-type PDG codes occupy the nuclear-code range 10LZZZAAAI. -/
def IsIon (pdgc : Int) : Bool :=
  decide (1000000000 ≤ pdgc) && decide (pdgc ≤ 1999999999)

/-- A GHEP particle: PDG code, status, first-mother index (−1 when unset),
momentum components, energy, and the PDG-table mass returned by `Mass()`. -/
structure GHepParticle where
  pdg : Int
  status : GHepStatus
  firstMother : Int
  px : ℝ
  py : ℝ
  pz : ℝ
  E : ℝ
  m : ℝ

/-- The nuclear target of the initial state; only its identity is consulted
(as the argument of the binding-energy lookup) plus its proton number. -/
structure Target where
  Z : Int
  A : Int

/-- A GHEP event record: the growable particle arena plus the interaction's
initial-state target. -/
structure GHepRecord where
  particles : List GHepParticle
  target : Target

/-- GHepRecord::Particle(pos): index into the particle arena, `none` for an
unset (−1) or out-of-range position. -/
def particleAt (rec : GHepRecord) (pos : Int) : Option GHepParticle :=
  if 0 ≤ pos then rec.particles[pos.toNat]? else none

/-- Magnitude of a particle's 3-momentum, TLorentzVector::P(). -/
noncomputable def pmag (p : GHepParticle) : ℝ :=
  Real.sqrt (p.px ^ 2 + p.py ^ 2 + p.pz ^ 2)

/-- Modelled from the spec: utils::math::NonNegative (Utils/MathUtils is not
among the sources) clamps its argument to `max(0, x)`. -/
def NonNegative (x : ℝ) : ℝ := max 0 x

namespace NucBindEnergyAggregator

/-- NucBindEnergyAggregator::FindMotherNucleus: from the particle at `ipos`,
follow the first-mother index; if set, the mother must have nucleon-target
status; then follow the mother's first-mother index; if set and the
grandmother's PDG code is an ion code, return the grandmother. -/
def FindMotherNucleus (ipos : ℕ) (rec : GHepRecord) : Option GHepParticle :=
  match rec.particles[ipos]? with
  | none => none
  | some p =>
    if p.firstMother ≠ -1 then
      match particleAt rec p.firstMother with
      | none => none
      | some mother =>
        if mother.status = GHepStatus.kIstNucleonTarget then
          if mother.firstMother ≠ -1 then
            match particleAt rec mother.firstMother with
            | none => none
            | some grandmother =>
              if IsIon grandmother.pdg then some grandmother else none
          else none
        else none
    else none

/-- The loop-body guard of ProcessEventRecord: the particle is a proton or a
neutron, has stable-final-state status, and FindMotherNucleus succeeds. -/
def eligibleAt (rec : GHepRecord) (ipos : ℕ) (p : GHepParticle) : Bool :=
  IsNeutronOrProton p.pdg
    && decide (p.status = GHepStatus.kIStStableFinalState)
    && (FindMotherNucleus ipos rec).isSome

/-- The correction applied to one eligible nucleon: subtract the binding
energy from its energy, rescale its 3-momentum by the ratio of new to old
momentum magnitude, and build the complementary BINDINO carrying the
remaining momentum and the binding energy.  The BINDINO is added with unset
mother/daughter indices, stable-final-state status, and (modelled from the
spec, its PDG-table entry being absent from the sources) zero species mass. -/
noncomputable def correctNucleon (bindE : ℝ) (p : GHepParticle) :
    GHepParticle × GHepParticle :=
  let M := p.m
  let En := p.E - bindE
  let pmag_old := pmag p
  let pmag_new := Real.sqrt (NonNegative (En * En - M * M))
  let scale := pmag_new / pmag_old
  let pxn := scale * p.px
  let pyn := scale * p.py
  let pzn := scale * p.pz
  let pxb := (1 - scale) * p.px
  let pyb := (1 - scale) * p.py
  let pzb := (1 - scale) * p.pz
  ({ p with E := En, px := pxn, py := pyn, pz := pzn },
   { pdg := kPdgBindino, status := GHepStatus.kIStStableFinalState,
     firstMother := -1, px := pxb, py := pyb, pz := pzb, E := bindE, m := 0 })

/-- One pass of the ProcessEventRecord loop over positions `ipos, ipos+1, …`
of the particle list, returning the (in-place corrected) particles and the
BINDINOs appended behind them.  The C++ loop iterates with a `TIter` over
the record while `AddParticle` appends to it, so the iterator also visits
the appended BINDINOs; those fail the proton-or-neutron test, and the
corrections alter only the 4-momenta of stable final-state nucleons — never
the status, PDG-code or mother fields read by FindMotherNucleus — so the
loop's effect is exactly this single pass with the appends collected at the
end. -/
noncomputable def processFrom (bindE : ℝ) (rec : GHepRecord) :
    ℕ → List GHepParticle → List GHepParticle × List GHepParticle
  | _, [] => ([], [])
  | ipos, p :: rest =>
    let tail := processFrom bindE rec (ipos + 1) rest
    if eligibleAt rec ipos p then
      let pb := correctNucleon bindE p
      (pb.1 :: tail.1, pb.2 :: tail.2)
    else
      (p :: tail.1, tail.2)

/-- NucBindEnergyAggregator::ProcessEventRecord.  The binding energy is
obtained from utils::nuclear::BindEnergyLastNucleon — whose implementation
is not among the sources, so it enters as the function parameter
`bindEnergyLastNucleon`, applied to the record's initial-state target. -/
noncomputable def ProcessEventRecord (bindEnergyLastNucleon : Target → ℝ)
    (rec : GHepRecord) : GHepRecord :=
  let bindE := bindEnergyLastNucleon rec.target
  let r := processFrom bindE rec 0 rec.particles
  { rec with particles := r.1 ++ r.2 }

end NucBindEnergyAggregator

/-! ## Bardin-Dokuchaeva inverse-muon-decay cross section -/

/-- Physics constants from Conventions/Constants.h (not among the sources):
Fermi coupling squared, electron mass and its square, muon mass squared, and
the electromagnetic coupling.  `kPi` is `Real.pi`. -/
structure PhysConsts where
  kGF_2 : ℝ
  kElectronMass : ℝ
  kElectronMass_2 : ℝ
  kMuonMass_2 : ℝ
  kAem : ℝ

/-- The fields of an Interaction consulted by BardinIMDRadCorPXSec: the
probe energy in the lab frame, the inelasticity y, the target proton number
Z, and the three interaction bits it tests. -/
structure Interaction where
  probeE : ℝ
  y : ℝ
  Z : Int
  skipProcessChk : Bool
  skipKinematicChk : Bool
  assumeFreeNucleon : Bool

/-- The IntegratorI sub-algorithm, abstracted as the dependency it is in the
source (configured via SubAlg): it maps an integrand and the bounds of its
declared parameter range to a value. -/
def IntegratorI : Type := (ℝ → ℝ) → ℝ → ℝ → ℝ

namespace BardinIMDRadCorPXSec

/-- BardinIMDRadCorPXSec::ValidProcess: returns true when the skip bit is
set, and (unconditionally) true otherwise. -/
def ValidProcess (i : Interaction) : Bool :=
  if i.skipProcessChk = true then true else true

/-- The Mandelstam invariant s = me² + 2·me·E computed in ValidKinematics. -/
def s (c : PhysConsts) (i : Interaction) : ℝ :=
  c.kElectronMass_2 + 2 * c.kElectronMass * i.probeE

/-- BardinIMDRadCorPXSec::ValidKinematics: true when the skip bit is set;
otherwise false exactly when s is below the muon-mass-squared threshold. -/
noncomputable def ValidKinematics (c : PhysConsts) (i : Interaction) : Bool :=
  if i.skipKinematicChk = true then true
  else if s c i < c.kMuonMass_2 then false else true

/-- The XSec local `re = 0.5 * kElectronMass / E`. -/
noncomputable def re (c : PhysConsts) (i : Interaction) : ℝ :=
  0.5 * c.kElectronMass / i.probeE

/-- The XSec local `r = (kMuonMass_2 / kElectronMass_2) * re`. -/
noncomputable def rB (c : PhysConsts) (i : Interaction) : ℝ :=
  c.kMuonMass_2 / c.kElectronMass_2 * re c i

/-- The XSec local `sig0 = kGF_2 * kElectronMass * E / kPi`. -/
noncomputable def sig0 (c : PhysConsts) (i : Interaction) : ℝ :=
  c.kGF_2 * c.kElectronMass * i.probeE / Real.pi

/-- The reassignment `y = 1 - y`: Bardin's y is El/Ev while the stored
inelasticity is (Ev−El)/Ev. -/
def bardinY (i : Interaction) : ℝ := 1 - i.y

/-- The XSec local `ymin = r + re`. -/
noncomputable def ymin (c : PhysConsts) (i : Interaction) : ℝ :=
  rB c i + re c i

/-- The XSec local `ymax = 1 + re + r*re/(1+re)`, clamped by
`ymax = TMath::Min(ymax, 1-e)` with `e = 1E-5` to avoid `log(1-y)` at
`y = 1`. -/
noncomputable def ymax (c : PhysConsts) (i : Interaction) : ℝ :=
  min (1 + re c i + rB c i * re c i / (1 + re c i)) (1 - 1e-5)

/-- BardinIMDRadCorPXSec::C — the Bardin-Dokuchaeva polynomial coefficient
table, indexed by i = 1..6 and k = −3..2. -/
noncomputable def C (i k : Int) (r : ℝ) : ℝ :=
  if i = 1 then
    if k = -3 then -0.19444444 * r ^ (3 : ℕ)
    else if k = -2 then (0.083333333 + 0.29166667 * r) * r ^ (2 : ℕ)
    else if k = -1 then -0.58333333 * r - 0.5 * r ^ (2 : ℕ) - r ^ (3 : ℕ) / 6
    else if k = 0 then -1.30555560 + 3.125 * r + 0.375 * r ^ (2 : ℕ)
    else if k = 1 then -0.91666667 - 0.25 * r
    else if k = 2 then 0.041666667
    else 0
  else if i = 2 then
    if k = -3 then 0
    else if k = -2 then 0.5 * r ^ (2 : ℕ)
    else if k = -1 then 0.5 * r - 2 * r ^ (2 : ℕ)
    else if k = 0 then 0.25 - 0.75 * r + 1.5 * r ^ (2 : ℕ)
    else if k = 1 then 0.5
    else if k = 2 then 0
    else 0
  else if i = 3 then
    if k = -3 then 0.16666667 * r ^ (3 : ℕ)
    else if k = -2 then 0.25 * r ^ (2 : ℕ) * (1 - r)
    else if k = -1 then r - 0.5 * r ^ (2 : ℕ)
    else if k = 0 then 0.66666667
    else if k = 1 then 0
    else if k = 2 then 0
    else 0
  else if i = 4 then
    if k = -3 then 0
    else if k = -2 then r ^ (2 : ℕ)
    else if k = -1 then r * (1 - 4 * r)
    else if k = 0 then 1.5 * r ^ (2 : ℕ)
    else if k = 1 then 1
    else if k = 2 then 0
    else 0
  else if i = 5 then
    if k = -3 then 0.16666667 * r ^ (3 : ℕ)
    else if k = -2 then -0.25 * r ^ (2 : ℕ) * (1 + r)
    else if k = -1 then 0.5 * r * (1 + 3 * r)
    else if k = 0 then -1.9166667 + 2.25 * r - 1.5 * r ^ (2 : ℕ)
    else if k = 1 then -0.5
    else if k = 2 then 0
    else 0
  else if i = 6 then
    if k = -3 then 0
    else if k = -2 then 0.16666667 * r ^ (2 : ℕ)
    else if k = -1 then -0.25 * r * (r + 0.33333333)
    else if k = 0 then 1.25 * (r + 0.33333333)
    else if k = 1 then 0.5
    else if k = 2 then 0
    else 0
  else 0

/-- BardinIMDRadCorPXSec::P — the k = −3..2 accumulation loop, unrolled:
`p = Σ_k C(i,k,r) · y^k`. -/
noncomputable def P (i : Int) (r y : ℝ) : ℝ :=
  C i (-3) r * y ^ (-3 : ℤ) + C i (-2) r * y ^ (-2 : ℤ)
    + C i (-1) r * y ^ (-1 : ℤ) + C i 0 r * y ^ (0 : ℤ)
    + C i 1 r * y ^ (1 : ℤ) + C i 2 r * y ^ (2 : ℤ)

/-- BardinIMDRadCorIntegrand::operator(): the Li2 integrand
`log(1 − z·t)/t`, guarded to return 0 at `t = 0` and when `t·z ≥ 1`. -/
noncomputable def BardinIMDRadCorIntegrand (z t : ℝ) : ℝ :=
  if t = 0 then 0
  else if 1 ≤ t * z then 0
  else Real.log (1 - z * t) / t

/-- BardinIMDRadCorPXSec::Li2: integrate the integrand over the
epsilon-shrunk parameter range `[ε, 1−ε]` with `ε = 1e-2`, via the
configured integrator. -/
noncomputable def Li2 (integrator : IntegratorI) (z : ℝ) : ℝ :=
  let epsilon : ℝ := 1e-2
  integrator (BardinIMDRadCorIntegrand z) epsilon (1 - epsilon)

/-- BardinIMDRadCorPXSec::Fa — the 1-loop radiative correction term. -/
noncomputable def Fa (integrator : IntegratorI) (re r y : ℝ) : ℝ :=
  let y2 := y * y
  let rre := r * re
  let r_y := r / y
  let y_r := y / r
  (1 - r) * (Real.log (y2 / rre) * Real.log (1 - r_y) +
             Real.log y_r * Real.log (1 - y) -
             Li2 integrator r +
             Li2 integrator y +
             Li2 integrator ((r - y) / (1 - y)) +
             1.5 * (1 - r) * Real.log (1 - r))
    + 0.5 * (1 + 3 * r) * (Li2 integrator ((1 - r_y) / (1 - r)) -
                           Li2 integrator ((y - r) / (1 - r)) -
                           Real.log y_r * Real.log ((y - r) / (1 - r)))
    + P 1 r y
    - P 2 r y * Real.log r
    - P 3 r y * Real.log re
    + P 4 r y * Real.log y
    + P 5 r y * Real.log (1 - y)
    + P 6 r y * (1 - r_y) * Real.log (1 - r_y)

/-- The differential cross section body `2·sig0·(1 − r + (αem/π)·Fa)`. -/
noncomputable def dsig_dy (c : PhysConsts) (integrator : IntegratorI)
    (i : Interaction) : ℝ :=
  2 * sig0 c i * (1 - rB c i + c.kAem / Real.pi *
    Fa integrator (re c i) (rB c i) (bardinY i))

/-- BardinIMDRadCorPXSec::XSec: return 0 unless the process and kinematics
checks pass and Bardin's y lies inside [ymin, ymax]; otherwise the
differential cross section, scaled by the number Z of scattering centers
unless the free-nucleon bit is set. -/
noncomputable def XSec (c : PhysConsts) (integrator : IntegratorI)
    (i : Interaction) : ℝ :=
  if ValidProcess i = false then 0
  else if ValidKinematics c i = false then 0
  else if bardinY i < ymin c i ∨ bardinY i > ymax c i then 0
  else if i.assumeFreeNucleon = true then dsig_dy c integrator i
  else (i.Z : ℝ) * dsig_dy c integrator i

/-- The algorithm state established by a successful configuration: the
resolved integrator sub-algorithm bound to `fIntegrator`. -/
structure AlgState where
  fIntegrator : IntegratorI

/-- BardinIMDRadCorPXSec::LoadSubAlg: resolve the "integrator-alg-name"
sub-algorithm (the argument models the result of the SubAlg lookup plus the
dynamic cast); `assert(fIntegrator)` makes an unresolved integrator a fatal
configuration failure, modelled as `none`. -/
def LoadSubAlg (subAlg : Option IntegratorI) : Option AlgState :=
  match subAlg with
  | none => none
  | some integrator => some ⟨integrator⟩

/-- BardinIMDRadCorPXSec::Configure: delegate to Algorithm::Configure (out
of scope) and then LoadSubAlg. -/
def Configure (subAlg : Option IntegratorI) : Option AlgState :=
  LoadSubAlg subAlg

end BardinIMDRadCorPXSec

/-! ## Physics interaction selector

Only the header of PhysInteractionSelector is among the sources, so the body
of SelectInteraction is modelled from the specification (spec §4.4): build
the ordered weight table, fail on a non-positive cumulative total, draw one
uniform value from the shared seedable random source, and pick the first
cumulative bucket exceeding the draw. -/

namespace PhysInteractionSelector

/-- Outcome of one selection call: either the terminal `Selected` state
carrying the chosen channel identifier, or the terminal `Failed` state,
which carries no event seed. -/
inductive SelectorOutcome where
  | Selected (channel : ℕ)
  | Failed
deriving DecidableEq, Repr

/-- Modelled from the spec: the shared, seedable random source ("explicit
seed-based initialization", one draw per selection call), realised as a
deterministic linear-congruential map from the seed to a unit draw in
[0, 1). -/
def nextUniform (seed : ℕ) : ℚ :=
  (((1103515245 * seed + 12345) % 2147483648 : ℕ) : ℚ) / 2147483648

/-- Modelled from the spec: select the smallest index i with `u < W_i`
where `W_i` is the running cumulative weight (piecewise-constant
inverse-CDF sampling, first-match-wins). -/
def selectIndex (u : ℚ) : List ℚ → ℚ → Option ℕ
  | [], _ => none
  | w :: ws, acc =>
    if u < acc + w then some 0 else (selectIndex u ws (acc + w)).map Nat.succ

/-- Modelled from the spec: PhysInteractionSelector::SelectInteraction
(implementation file not among the sources).  Given the seed of the shared
random source and the ordered weight table of (channel identifier, weight)
pairs, compute the cumulative total; if it is ≤ 0 terminate in `Failed`
producing no event seed; otherwise draw one uniform value `u` in
[0, W_last) and select the first cumulative bucket exceeding `u`. -/
def SelectInteraction (seed : ℕ) (table : List (ℕ × ℚ)) : SelectorOutcome :=
  let ws := table.map Prod.snd
  let wTot := ws.sum
  if wTot ≤ 0 then SelectorOutcome.Failed
  else
    let u := nextUniform seed * wTot
    match selectIndex u ws 0 with
    | some idx =>
      match table[idx]? with
      | some entry => SelectorOutcome.Selected entry.1
      | none => SelectorOutcome.Failed
    | none => SelectorOutcome.Failed

end PhysInteractionSelector

/-! ## Spec-side formulation of the binding correction

A second, clearly named set of definitions written from the specification's
words (spec §6), to be compared with the source-translated
`NucBindEnergyAggregator` definitions: the momentum rescale factor
`scale = sqrt(max(0, E'^2 − m^2)) / |p_old|`, the corrected nucleon, and the
bookkeeping pseudo-particle carrying the complementary momentum
`(1−scale)·p_old` and energy equal to the binding energy. -/

namespace NucBindEnergyAggregator

/-- Spec formulation: `scale = sqrt(max(0, E'^2 − m^2)) / |p_old|` with
`E' = E − b`. -/
noncomputable def specScale (b : ℝ) (p : GHepParticle) : ℝ :=
  Real.sqrt (max 0 ((p.E - b) ^ 2 - p.m ^ 2)) / pmag p

/-- Spec formulation: the corrected nucleon, energy lowered by the binding
energy and 3-momentum rescaled component-wise by `specScale`. -/
noncomputable def specCorrected (b : ℝ) (p : GHepParticle) : GHepParticle :=
  { p with E := p.E - b, px := specScale b p * p.px,
           py := specScale b p * p.py, pz := specScale b p * p.pz }

/-- Spec formulation: the bookkeeping pseudo-particle, carrying the
complementary momentum `(1−scale)·p_old`, energy equal to the binding
energy, stable-final-state status and no physical mass. -/
noncomputable def specBindino (b : ℝ) (p : GHepParticle) : GHepParticle :=
  { pdg := kPdgBindino, status := GHepStatus.kIStStableFinalState,
    firstMother := -1, px := (1 - specScale b p) * p.px,
    py := (1 - specScale b p) * p.py, pz := (1 - specScale b p) * p.pz,
    E := b, m := 0 }

/-- Spec formulation: the particle list after the pass, each eligible
nucleon replaced by its correction, the rest untouched. -/
noncomputable def specCorrectedList (b : ℝ) (rec : GHepRecord) :
    ℕ → List GHepParticle → List GHepParticle
  | _, [] => []
  | i, p :: rest =>
    (if eligibleAt rec i p then specCorrected b p else p)
      :: specCorrectedList b rec (i + 1) rest

/-- Spec formulation: exactly one bookkeeping pseudo-particle appended per
eligible nucleon, in scan order, all built with the same target-determined
binding energy `b`. -/
noncomputable def specBindinoList (b : ℝ) (rec : GHepRecord) :
    ℕ → List GHepParticle → List GHepParticle
  | _, [] => []
  | i, p :: rest =>
    (if eligibleAt rec i p then [specBindino b p] else [])
      ++ specBindinoList b rec (i + 1) rest

end NucBindEnergyAggregator

/-! ## Concrete fixtures used by witnesses and counterexamples -/

/-- An iron-ion originating particle (nuclear PDG code for Fe56). -/
def pIonFix : GHepParticle :=
  { pdg := 1000260560, status := GHepStatus.kIStInitialState,
    firstMother := -1, px := 0, py := 0, pz := 0, E := 52, m := 52 }

/-- A struck-nucleon-target mother whose first mother is the ion. -/
def pMotherFix : GHepParticle :=
  { pdg := 2212, status := GHepStatus.kIstNucleonTarget,
    firstMother := 0, px := 0, py := 0, pz := 0, E := 1, m := 1 }

/-- An eligible final-state proton: E = 5, m = 3, p_old = (4, 0, 0). -/
def pNuclFix : GHepParticle :=
  { pdg := 2212, status := GHepStatus.kIStStableFinalState,
    firstMother := 1, px := 4, py := 0, pz := 0, E := 5, m := 3 }

/-- A final-state muon: fails the proton-or-neutron test. -/
def pLepFix : GHepParticle :=
  { pdg := 13, status := GHepStatus.kIStStableFinalState,
    firstMother := 1, px := 1, py := 0, pz := 0, E := 2, m := 1 }

/-- An eligible final-state proton at rest: p_old = (0, 0, 0). -/
def pRestFix : GHepParticle :=
  { pdg := 2212, status := GHepStatus.kIStStableFinalState,
    firstMother := 1, px := 0, py := 0, pz := 0, E := 3, m := 3 }

/-- A fixed target (Fe56). -/
def targetFix : Target := { Z := 26, A := 56 }

/-- An event record with the ion, the struck nucleon, an eligible escaped
proton and a non-nucleon lepton. -/
def recFix : GHepRecord :=
  { particles := [pIonFix, pMotherFix, pNuclFix, pLepFix], target := targetFix }

/-- An event record whose eligible escaped proton is at rest. -/
def recRestFix : GHepRecord :=
  { particles := [pIonFix, pMotherFix, pRestFix], target := targetFix }

/-- A concrete binding-energy table: 5/4 for every target. -/
noncomputable def bEFix : Target → ℝ := fun _ => 5 / 4

/-- Concrete physics constants for witnesses: electron mass 1, muon mass
squared 100, unit couplings. -/
def cFix : PhysConsts :=
  { kGF_2 := 1, kElectronMass := 1, kElectronMass_2 := 1,
    kMuonMass_2 := 100, kAem := 1 }

/-- A concrete below-threshold interaction: probe energy 1 gives
s = 1 + 2 = 3 < 100. -/
noncomputable def iFix : Interaction :=
  { probeE := 1, y := 1 / 2, Z := 26, skipProcessChk := false,
    skipKinematicChk := false, assumeFreeNucleon := false }

/-- A concrete integrator (identically zero result). -/
def integratorFix : IntegratorI := fun _ _ _ => 0

/-! ## Helper lemmas -/

namespace NucBindEnergyAggregator

theorem correctNucleon_eq_spec (b : ℝ) (p : GHepParticle) :
    correctNucleon b p = (specCorrected b p, specBindino b p) := by
  have h : (p.E - b) * (p.E - b) - p.m * p.m = (p.E - b) ^ 2 - p.m ^ 2 := by
    ring
  simp only [correctNucleon, specCorrected, specBindino, specScale,
    NonNegative, h]

theorem processFrom_eq_spec (b : ℝ) (rec : GHepRecord) :
    ∀ (l : List GHepParticle) (i : ℕ),
      processFrom b rec i l =
        (specCorrectedList b rec i l, specBindinoList b rec i l) := by
  intro l
  induction l with
  | nil => intro i; rfl
  | cons p rest ih =>
    intro i
    simp only [processFrom, specCorrectedList, specBindinoList, ih (i + 1),
      correctNucleon_eq_spec]
    by_cases h : eligibleAt rec i p = true
    · simp [h]
    · simp [h]

theorem specCorrectedList_length (b : ℝ) (rec : GHepRecord) :
    ∀ (l : List GHepParticle) (i : ℕ),
      (specCorrectedList b rec i l).length = l.length := by
  intro l
  induction l with
  | nil => intro i; rfl
  | cons p rest ih => intro i; simp [specCorrectedList, ih]

theorem specCorrectedList_getElem (b : ℝ) (rec : GHepRecord) :
    ∀ (l : List GHepParticle) (i j : ℕ),
      (specCorrectedList b rec i l)[j]? =
        (l[j]?).map
          (fun p => if eligibleAt rec (i + j) p then specCorrected b p else p) := by
  intro l
  induction l with
  | nil => intro i j; simp [specCorrectedList]
  | cons p rest ih =>
    intro i j
    cases j with
    | zero => simp [specCorrectedList]
    | succ j =>
      have e : i + (j + 1) = (i + 1) + j := by omega
      simp only [specCorrectedList, List.getElem?_cons_succ, ih (i + 1) j, e]

theorem processed_getElem (bE : Target → ℝ) (rec : GHepRecord) (i : ℕ)
    (p : GHepParticle) (h : rec.particles[i]? = some p) :
    (ProcessEventRecord bE rec).particles[i]? =
      some (if eligibleAt rec i p then specCorrected (bE rec.target) p
            else p) := by
  have hlen : i < rec.particles.length := (List.getElem?_eq_some.mp h).1
  have hrw : (ProcessEventRecord bE rec).particles =
      specCorrectedList (bE rec.target) rec 0 rec.particles
        ++ specBindinoList (bE rec.target) rec 0 rec.particles := by
    simp only [ProcessEventRecord, processFrom_eq_spec]
  rw [hrw, List.getElem?_append,
      if_pos (by rw [specCorrectedList_length]; exact hlen),
      specCorrectedList_getElem, h]
  simp

theorem eligibleAt_eq_true_iff (rec : GHepRecord) (i : ℕ) (p : GHepParticle) :
    eligibleAt rec i p = true ↔
      (IsNeutronOrProton p.pdg = true ∧
        p.status = GHepStatus.kIStStableFinalState ∧
        (FindMotherNucleus i rec).isSome = true) := by
  simp [eligibleAt, Bool.and_eq_true, and_assoc]

end NucBindEnergyAggregator

namespace BardinIMDRadCorPXSec

theorem validProcess_always_true (i : Interaction) : ValidProcess i = true := by
  unfold ValidProcess
  split <;> rfl

theorem ymax_le (c : PhysConsts) (i : Interaction) :
    ymax c i ≤ 1 - 1 / 100000 := by
  rw [ymax]
  exact le_trans (min_le_right _ _) (by norm_num)

end BardinIMDRadCorPXSec

/-! ## Claim theorems -/

namespace NucBindEnergyAggregator

/-- C1: for every nucleon the binding correction processes, the corrected
nucleon together with the appended bookkeeping particle conserve the
original 4-momentum: the new energy plus the binding energy equals the old
energy, and each new momentum component plus the BINDINO's component equals
the original component (exactly, in the real-number embedding of the
floating-point arithmetic). -/
theorem binding_correction_conserves_four_momentum (bindE : ℝ)
    (p : GHepParticle) :
    (correctNucleon bindE p).1.E + bindE = p.E ∧
    (correctNucleon bindE p).1.px + (correctNucleon bindE p).2.px = p.px ∧
    (correctNucleon bindE p).1.py + (correctNucleon bindE p).2.py = p.py ∧
    (correctNucleon bindE p).1.pz + (correctNucleon bindE p).2.pz = p.pz := by
  refine ⟨?_, ?_, ?_, ?_⟩ <;> (simp only [correctNucleon]; ring)

/-- C1 witness: the conservation identities at the concrete eligible proton
and binding energy 5/4. -/
theorem binding_correction_conserves_four_momentum_witness :
    (correctNucleon ((5 : ℝ) / 4) pNuclFix).1.E + (5 : ℝ) / 4 = pNuclFix.E ∧
    (correctNucleon ((5 : ℝ) / 4) pNuclFix).1.px +
      (correctNucleon ((5 : ℝ) / 4) pNuclFix).2.px = pNuclFix.px ∧
    (correctNucleon ((5 : ℝ) / 4) pNuclFix).1.py +
      (correctNucleon ((5 : ℝ) / 4) pNuclFix).2.py = pNuclFix.py ∧
    (correctNucleon ((5 : ℝ) / 4) pNuclFix).1.pz +
      (correctNucleon ((5 : ℝ) / 4) pNuclFix).2.pz = pNuclFix.pz :=
  binding_correction_conserves_four_momentum ((5 : ℝ) / 4) pNuclFix

/-- C2: the processed event record is exactly the spec's description: each
eligible nucleon's energy is lowered by the binding energy and its
3-momentum rescaled component-wise by `sqrt(max(0, E'^2 − m^2)) / |p_old|`,
and behind the particle list exactly one bookkeeping pseudo-particle per
eligible nucleon is appended, carrying `(1−scale)·p_old` and the binding
energy; the single binding-energy value `bE rec.target` is a function of
the target only, used identically for every corrected nucleon. -/
theorem process_event_record_matches_spec (bE : Target → ℝ)
    (rec : GHepRecord) :
    (ProcessEventRecord bE rec).particles =
      specCorrectedList (bE rec.target) rec 0 rec.particles
        ++ specBindinoList (bE rec.target) rec 0 rec.particles := by
  simp only [ProcessEventRecord, processFrom_eq_spec]

/-- C2 witness: the refinement equation at the concrete event record. -/
theorem process_event_record_matches_spec_witness :
    (ProcessEventRecord bEFix recFix).particles =
      specCorrectedList (bEFix recFix.target) recFix 0 recFix.particles
        ++ specBindinoList (bEFix recFix.target) recFix 0 recFix.particles :=
  process_event_record_matches_spec bEFix recFix

/-- C3: a particle of the event record is corrected if and only if it is a
proton or neutron, in stable-final-state status, and traceable through the
mother/grandmother chain to an ion-type particle (FindMotherNucleus
succeeds); a particle failing any of the three conditions is untouched. -/
theorem modifies_iff_eligible (bE : Target → ℝ) (rec : GHepRecord) (i : ℕ)
    (p : GHepParticle) (h : rec.particles[i]? = some p) :
    ((IsNeutronOrProton p.pdg = true ∧
        p.status = GHepStatus.kIStStableFinalState ∧
        (FindMotherNucleus i rec).isSome = true) →
      (ProcessEventRecord bE rec).particles[i]? =
        some ((correctNucleon (bE rec.target) p).1)) ∧
    (¬ (IsNeutronOrProton p.pdg = true ∧
        p.status = GHepStatus.kIStStableFinalState ∧
        (FindMotherNucleus i rec).isSome = true) →
      (ProcessEventRecord bE rec).particles[i]? = some p) := by
  have key := processed_getElem bE rec i p h
  constructor
  · intro hc
    rw [key, if_pos ((eligibleAt_eq_true_iff rec i p).mpr hc)]
    have h1 : (correctNucleon (bE rec.target) p).1 =
        specCorrected (bE rec.target) p := by
      rw [correctNucleon_eq_spec]
    rw [h1]
  · intro hc
    rw [key, if_neg (fun hh => hc ((eligibleAt_eq_true_iff rec i p).mp hh))]

/-- C3 witness: in the concrete record, the final-state muon at position 3
fails the proton-or-neutron test and is left untouched. -/
theorem modifies_iff_eligible_witness :
    (ProcessEventRecord bEFix recFix).particles[3]? = some pLepFix :=
  (modifies_iff_eligible bEFix recFix 3 pLepFix rfl).2 (by decide)

/-- C8 counterexample: for the concrete eligible proton with E = 5, m = 3,
p_old = (4,0,0) and binding energy 5/4, the appended BINDINO's 4-momentum
((7/4, 0, 0), 5/4) has invariant mass squared −3/2 ≠ 0: the bookkeeping
particle's 4-momentum is not massless. -/
theorem bindino_four_momentum_not_massless :
    ((correctNucleon ((5 : ℝ) / 4) pNuclFix).2.E) ^ 2 -
      (((correctNucleon ((5 : ℝ) / 4) pNuclFix).2.px) ^ 2 +
       ((correctNucleon ((5 : ℝ) / 4) pNuclFix).2.py) ^ 2 +
       ((correctNucleon ((5 : ℝ) / 4) pNuclFix).2.pz) ^ 2) ≠ 0 := by
  have hpm : pmag pNuclFix = 4 := by
    rw [pmag,
      show pNuclFix.px ^ 2 + pNuclFix.py ^ 2 + pNuclFix.pz ^ 2 = (4 : ℝ) ^ 2
        by norm_num [pNuclFix]]
    exact Real.sqrt_sq (by norm_num)
  have hnew : Real.sqrt (NonNegative
      ((pNuclFix.E - 5 / 4) * (pNuclFix.E - 5 / 4)
        - pNuclFix.m * pNuclFix.m)) = 9 / 4 := by
    rw [show NonNegative ((pNuclFix.E - 5 / 4) * (pNuclFix.E - 5 / 4)
          - pNuclFix.m * pNuclFix.m) = ((9 : ℝ) / 4) ^ 2 by
        rw [NonNegative]
        rw [show (pNuclFix.E - 5 / 4) * (pNuclFix.E - 5 / 4)
              - pNuclFix.m * pNuclFix.m = (81 : ℝ) / 16 by norm_num [pNuclFix]]
        norm_num]
    exact Real.sqrt_sq (by norm_num)
  simp only [correctNucleon, hpm, hnew]
  norm_num [pNuclFix]

/-- C8 amended: every appended bookkeeping particle has stable-final-state
status, zero species mass and energy equal to the binding energy (but its
4-momentum is in general off-shell, see the counterexample). -/
theorem bindino_stable_final_state_no_species_mass (bindE : ℝ)
    (p : GHepParticle) :
    (correctNucleon bindE p).2.status = GHepStatus.kIStStableFinalState ∧
    (correctNucleon bindE p).2.m = 0 ∧
    (correctNucleon bindE p).2.E = bindE :=
  ⟨rfl, rfl, rfl⟩

/-- C8 amended-claim witness: the BINDINO attributes at the concrete
eligible proton and binding energy 5/4. -/
theorem bindino_stable_final_state_no_species_mass_witness :
    (correctNucleon ((5 : ℝ) / 4) pNuclFix).2.status =
      GHepStatus.kIStStableFinalState ∧
    (correctNucleon ((5 : ℝ) / 4) pNuclFix).2.m = 0 ∧
    (correctNucleon ((5 : ℝ) / 4) pNuclFix).2.E = (5 : ℝ) / 4 :=
  bindino_stable_final_state_no_species_mass ((5 : ℝ) / 4) pNuclFix

/-- C10: the momentum rescale divides by the original 3-momentum magnitude
with no zero guard: the concrete record holds an eligible final-state
proton at rest, its `|p_old|` is 0, and ProcessEventRecord nevertheless
applies the correction (whose `scale` is `pmag_new / 0`) to it. -/
theorem rescale_division_by_zero_at_rest :
    eligibleAt recRestFix 2 pRestFix = true ∧
    pmag pRestFix = 0 ∧
    (ProcessEventRecord bEFix recRestFix).particles[2]? =
      some ((correctNucleon (bEFix recRestFix.target) pRestFix).1) := by
  refine ⟨by decide, ?_, ?_⟩
  · rw [pmag,
      show pRestFix.px ^ 2 + pRestFix.py ^ 2 + pRestFix.pz ^ 2 = (0 : ℝ)
        by norm_num [pRestFix]]
    exact Real.sqrt_zero
  · have key := processed_getElem bEFix recRestFix 2 pRestFix rfl
    rw [key, if_pos (by decide),
      show specCorrected (bEFix recRestFix.target) pRestFix =
          (correctNucleon (bEFix recRestFix.target) pRestFix).1 by
        rw [correctNucleon_eq_spec]]

end NucBindEnergyAggregator

namespace BardinIMDRadCorPXSec

/-- C4: XSec returns exactly 0 (raising no error) for kinematically
forbidden input: whenever ValidProcess is false, ValidKinematics is false
(probe energy below the IMD threshold), or Bardin's inelasticity variable
lies outside the allowed [ymin, ymax] window. -/
theorem xsec_zero_on_forbidden_kinematics (c : PhysConsts)
    (integrator : IntegratorI) (i : Interaction)
    (h : ValidProcess i = false ∨ ValidKinematics c i = false ∨
         bardinY i < ymin c i ∨ bardinY i > ymax c i) :
    XSec c integrator i = 0 := by
  unfold XSec
  split_ifs with h1 h2 h3 h4 <;>
    first
      | rfl
      | (rcases h with h | h | h | h
         exacts [absurd h h1, absurd h h2, absurd (Or.inl h) h3,
           absurd (Or.inr h) h3])

/-- C4 witness: the concrete below-threshold interaction (probe energy 1,
s = 3 < 100) fails ValidKinematics and XSec evaluates to 0. -/
theorem xsec_zero_on_forbidden_kinematics_witness :
    ValidKinematics cFix iFix = false ∧ XSec cFix integratorFix iFix = 0 := by
  have hvk : ValidKinematics cFix iFix = false := by
    norm_num [ValidKinematics, s, cFix, iFix]
  exact ⟨hvk, xsec_zero_on_forbidden_kinematics cFix integratorFix iFix
    (Or.inr (Or.inl hvk))⟩

/-- C7: the singular points of the radiative-correction integration are
never evaluated: the Li2 integrand returns 0 at t = 0 and when t·z ≥ 1, and
whenever the log-over-t formula is used the denominator is nonzero and the
log argument 1 − z·t is strictly positive; Li2 integrates over the
epsilon-shrunk domain [1/100, 1 − 1/100] instead of [0, 1]; and XSec's ymax
is clamped to at most 1 − 10⁻⁵, so for any y inside the allowed window the
argument 1 − y of log(1−y) stays strictly positive. -/
theorem singular_points_never_evaluated (z t : ℝ) (integrator : IntegratorI)
    (c : PhysConsts) (i : Interaction) :
    (t = 0 → BardinIMDRadCorIntegrand z t = 0) ∧
    (1 ≤ t * z → BardinIMDRadCorIntegrand z t = 0) ∧
    (t ≠ 0 → t * z < 1 →
      BardinIMDRadCorIntegrand z t = Real.log (1 - z * t) / t ∧
        0 < 1 - z * t) ∧
    Li2 integrator z =
      integrator (BardinIMDRadCorIntegrand z) (1 / 100) (1 - 1 / 100) ∧
    ymax c i ≤ 1 - 1 / 100000 ∧
    (bardinY i ≤ ymax c i → 0 < 1 - bardinY i) := by
  refine ⟨?_, ?_, ?_, ?_, ymax_le c i, ?_⟩
  · intro h
    simp [BardinIMDRadCorIntegrand, h]
  · intro h
    rcases eq_or_ne t 0 with rfl | ht
    · simp [BardinIMDRadCorIntegrand]
    · simp [BardinIMDRadCorIntegrand, ht, h]
  · intro ht hlt
    refine ⟨by simp [BardinIMDRadCorIntegrand, ht, not_le.mpr hlt], ?_⟩
    have h' : z * t < 1 := by rwa [mul_comm]
    linarith
  · rw [Li2, show (1e-2 : ℝ) = 1 / 100 by norm_num]
  · intro hy
    have hm := ymax_le c i
    linarith

/-- C7 witness: the guards evaluated at concrete points: the integrand is 0
at t = 0 and at (z, t) = (2, 1); at the interior point (z, t) = (2, 1/4)
the log argument is positive. -/
theorem singular_points_never_evaluated_witness :
    BardinIMDRadCorIntegrand 2 0 = 0 ∧
    BardinIMDRadCorIntegrand 2 1 = 0 ∧
    (0 : ℝ) < 1 - 2 * (1 / 4) :=
  ⟨(singular_points_never_evaluated 2 0 integratorFix cFix iFix).1 rfl,
   (singular_points_never_evaluated 2 1 integratorFix cFix iFix).2.1
     (by norm_num),
   ((singular_points_never_evaluated 2 (1 / 4) integratorFix cFix
       iFix).2.2.1 (by norm_num) (by norm_num)).2⟩

/-- C9: a missing integrator sub-algorithm is a fatal configuration error:
Configure fails (returns no algorithm state) exactly when the integrator
lookup is unresolved, and every successfully configured state carries the
resolved integrator bound to fIntegrator — so XSec, which runs against a
configured state's fIntegrator, is never invoked with an unbound
integrator. -/
theorem configure_fails_without_integrator :
    Configure none = none ∧
    ∀ (subAlg : Option IntegratorI) (st : AlgState),
      Configure subAlg = some st → subAlg = some st.fIntegrator := by
  refine ⟨rfl, ?_⟩
  intro subAlg st h
  cases subAlg with
  | none => exact absurd h (by simp [Configure, LoadSubAlg])
  | some integrator =>
    simp only [Configure, LoadSubAlg, Option.some.injEq] at h
    rw [← h]

/-- C9 witness: configuring with the concrete integrator succeeds and binds
exactly that integrator. -/
theorem configure_fails_without_integrator_witness :
    Configure none = none ∧
    some integratorFix = some ((AlgState.mk integratorFix).fIntegrator) :=
  ⟨configure_fails_without_integrator.1,
   configure_fails_without_integrator.2 (some integratorFix)
     (AlgState.mk integratorFix) rfl⟩

end BardinIMDRadCorPXSec

namespace PhysInteractionSelector

/-- C5: the selection is a deterministic function of the random-source seed
and the ordered weight table: two selection calls with equal seeds and
equal tables produce the identical outcome. -/
theorem select_interaction_deterministic (seed1 seed2 : ℕ)
    (t1 t2 : List (ℕ × ℚ)) (hs : seed1 = seed2) (ht : t1 = t2) :
    SelectInteraction seed1 t1 = SelectInteraction seed2 t2 := by
  subst hs
  subst ht
  rfl

/-- C5 witness: two runs at seed 42 over the table {3, 1} coincide. -/
theorem select_interaction_deterministic_witness :
    SelectInteraction 42 [(1, 3), (2, 1)] =
      SelectInteraction 42 [(1, 3), (2, 1)] :=
  select_interaction_deterministic 42 42 [(1, 3), (2, 1)] [(1, 3), (2, 1)]
    rfl rfl

/-- C6: when the cumulative weight total over all channels is ≤ 0 (no
channel kinematically allowed, or all weights zero), the selection
terminates in the Failed state, which carries no event seed. -/
theorem select_interaction_failed_on_nonpositive_total (seed : ℕ)
    (table : List (ℕ × ℚ)) (h : (table.map Prod.snd).sum ≤ 0) :
    SelectInteraction seed table = SelectorOutcome.Failed := by
  simp only [SelectInteraction]
  rw [if_pos h]

/-- C6 witness: a weight table with all-zero weights makes the selector
terminate in Failed. -/
theorem select_interaction_failed_on_nonpositive_total_witness :
    SelectInteraction 7 [(1, 0), (2, 0)] = SelectorOutcome.Failed :=
  select_interaction_failed_on_nonpositive_total 7 [(1, 0), (2, 0)] (by simp)

end PhysInteractionSelector

end Genie
